import Mathlib

set_option maxHeartbeats 1000000

/-!
Shallow embedding of `src/main.py` of the i3-energy-tracker repository.

The program fetches Danish day-ahead electricity prices, caches them in one
JSON file per date, and renders the current-hour (or whole-day) price as a
colored status-bar markup fragment.  This file embeds the color mapper
(`output_background`), the price formatter (`format_price`), the fetcher
(`get_energi_prices`), and the cache store (`write_prices_file`,
`read_prices_file`, `output_hour_price`) as executable Lean definitions,
and proves the specification claims about them.

Python's integer floor division `//` is embedded as `Int.fdiv`; Python list
subscripts (including negative indices) as `pyIndex`; the Python slice
`l[a:b]` as `pySlice`.
-/

namespace EnergyTracker

/-- Source constant `COLORS` of `src/main.py`: the fixed table of 31 HEX
color stops, ordered from cheap (green) to expensive (red). -/
def COLORS : List String := [
  "#00FF00", "#11FF00", "#22FF00", "#33FF00", "#44FF00", "#55FF00",
  "#66FF00", "#77FF00", "#88FF00", "#99FF00", "#AAFF00", "#BBFF00",
  "#CCFF00", "#DDFF00", "#EEFF00", "#FFFF00", "#FFEE00", "#FFDD00",
  "#FFCC00", "#FFBB00", "#FFAA00", "#FF9900", "#FF8800", "#FF7700",
  "#FF6600", "#FF5500", "#FF4400", "#FF3300", "#FF2200", "#FF1100",
  "#FF0000"]

/-- Source constant `MIN_COLOR` (lower bound for the øre price). -/
def MIN_COLOR : Int := 250

/-- Source constant `MAX_COLOR` (upper bound for the øre price). -/
def MAX_COLOR : Int := 700

/-- Python list subscript `l[i]` with Python semantics: a negative index
counts from the end of the list; an index out of range yields `none`
(Python raises `IndexError`). -/
def pyIndex (l : List α) (i : Int) : Option α :=
  let j : Int := if i < 0 then i + l.length else i
  if j < 0 then none else l.get? j.toNat

/-- Python list slice `l[start:stop]` for a non-negative `start` and a
possibly negative `stop` (a negative `stop` counts from the end). -/
def pySlice (l : List α) (start : Nat) (stop : Int) : List α :=
  let stopN : Nat := if stop < 0 then (stop + l.length).toNat else stop.toNat
  (l.take stopN).drop start

/-- Embedding of `output_background` (src/main.py lines 126-145): maps an
integer øre price to a HEX color.  Prices at or below `MIN_COLOR` give
`COLORS[0]`, prices at or beyond `MAX_COLOR` give `COLORS[-1]`; otherwise
the slice `COLORS[1:-2]` is indexed at `(price - MIN_COLOR) //
vrange_interval - 1`, where `vrange_interval = (MAX_COLOR - MIN_COLOR) //
len(colors)`.  Python's `//` is `Int.fdiv`, and the final subscript uses
Python index semantics (`pyIndex`), so the result is an `Option`. -/
def output_background (price : Int) : Option String :=
  if price ≤ MIN_COLOR then
    pyIndex COLORS 0
  else if price ≥ MAX_COLOR then
    pyIndex COLORS (-1)
  else
    let colors := pySlice COLORS 1 (-2)
    let vrange := MAX_COLOR - MIN_COLOR
    let vrange_interval := vrange.fdiv colors.length
    pyIndex colors ((price - MIN_COLOR).fdiv vrange_interval - 1)

/-- Embedding of `format_price` (src/main.py lines 98-108).  The source
renders the Python f-string `f"{price/100:.2f} DKK"`: true division by 100
followed by two-decimal formatting.  For the integer øre amounts this
program handles, that float rendering coincides with exact two-decimal
decimal rendering of price/100, which is what this definition computes
(quotient, a dot, and the zero-padded two-digit remainder). -/
def format_price (price : Int) : String :=
  (if price < 0 then "-" else "") ++
    toString (price.natAbs / 100) ++ "." ++
    (if price.natAbs % 100 < 10 then "0" else "") ++
    toString (price.natAbs % 100) ++ " DKK"

/-- Rank of the color produced for a price: its position in the ordered
cheap-to-expensive table `COLORS`.  A missing color (never produced, see the
totality theorem) ranks past the end. -/
def colorRank (p : Int) : Nat :=
  match output_background p with
  | some c => COLORS.indexOf c
  | none => COLORS.length

/-- Interpretation of claim C4's stated algorithm, following the spec's
words rather than the source: drop exactly the two extreme stops (the
slice `COLORS[1:-1]`, 29 entries) to get the interior palette of length L,
take `interval = (MAX_COLOR - MIN_COLOR) // L`, and index the palette at
`(price - MIN_COLOR) // interval - 1`. -/
def output_background_claimC4 (price : Int) : Option String :=
  if price ≤ MIN_COLOR then
    pyIndex COLORS 0
  else if price ≥ MAX_COLOR then
    pyIndex COLORS (-1)
  else
    let colors := pySlice COLORS 1 (-1)
    let interval := (MAX_COLOR - MIN_COLOR).fdiv colors.length
    pyIndex colors ((price - MIN_COLOR).fdiv interval - 1)

/-- Index into the interior palette as computed by the source:
`(price - MIN_COLOR) // vrange_interval - 1` with the source's palette
`COLORS[1:-2]`. -/
def interiorIndex (price : Int) : Int :=
  (price - MIN_COLOR).fdiv
    ((MAX_COLOR - MIN_COLOR).fdiv (pySlice COLORS 1 (-2)).length) - 1

/-- JSON values as the program manipulates them: the pricing API returns an
object whose "prices" field is an array of objects with integer price
fields.  This models the fragment of JSON that `json.loads` / `json.dumps`
handle for this program: integers, strings, arrays and objects (floats,
booleans and null do not occur in the cached price data model). -/
inductive Json where
  | num (n : Int)
  | str (s : String)
  | arr (elems : List Json)
  | obj (fields : List (String × Json))

/-- Decimal digit character for a digit value 0-9. -/
def digitChar (d : Nat) : Char :=
  match d with
  | 0 => '0'
  | 1 => '1'
  | 2 => '2'
  | 3 => '3'
  | 4 => '4'
  | 5 => '5'
  | 6 => '6'
  | 7 => '7'
  | 8 => '8'
  | _ => '9'

/-- Decimal rendering of a natural number as a character list. -/
def natChars (n : Nat) : List Char :=
  if _h : n < 10 then [digitChar n]
  else natChars (n / 10) ++ [digitChar (n % 10)]
decreasing_by omega

/-- Decimal rendering of an integer (with a leading minus sign when
negative), as Python renders JSON integers. -/
def intChars (n : Int) : List Char :=
  if n < 0 then '-' :: natChars n.natAbs else natChars n.toNat

/-- Rendering of a JSON string: a double quote, the raw characters, a
double quote.  Python additionally escapes quotes, backslashes, control
and non-ASCII characters; the program's data contains none of those, and
the well-formedness predicate `wfJson` restricts string contents so that
this unescaped rendering round-trips. -/
def dumpStr (s : String) : List Char :=
  '\x22' :: s.data ++ ['\x22']

mutual

/-- Rendering of a JSON value as `json.dumps` renders it with Python's
default separators (", " between items, ": " after keys). -/
def dumpJson : Json → List Char
  | .num n => intChars n
  | .str s => dumpStr s
  | .arr es => '[' :: dumpElems es ++ [']']
  | .obj fs => '\x7b' :: dumpFields fs ++ ['\x7d']

/-- Rendering of array elements, separated by ", ". -/
def dumpElems : List Json → List Char
  | [] => []
  | [j] => dumpJson j
  | j :: rest => dumpJson j ++ ',' :: ' ' :: dumpElems rest

/-- Rendering of object fields, "key": value, separated by ", ". -/
def dumpFields : List (String × Json) → List Char
  | [] => []
  | [(k, v)] => dumpStr k ++ ':' :: ' ' :: dumpJson v
  | (k, v) :: rest =>
      dumpStr k ++ ':' :: ' ' :: dumpJson v ++ ',' :: ' ' :: dumpFields rest

end

/-- Embedding of `json.dumps`. -/
def dumps (j : Json) : String := String.mk (dumpJson j)

/-- Whitespace characters skipped by the JSON parser. -/
def isWsChar (c : Char) : Bool :=
  c = ' ' || c = '\n' || c = '\t' || c = '\r'

/-- Skip leading whitespace. -/
def skipWs : List Char → List Char
  | [] => []
  | c :: cs => if isWsChar c then skipWs cs else c :: cs

/-- Decimal digit test. -/
def isDigitCh (c : Char) : Bool :=
  match c with
  | '0' | '1' | '2' | '3' | '4' | '5' | '6' | '7' | '8' | '9' => true
  | _ => false

/-- Value of a decimal digit character. -/
def digitVal (c : Char) : Nat :=
  match c with
  | '0' => 0
  | '1' => 1
  | '2' => 2
  | '3' => 3
  | '4' => 4
  | '5' => 5
  | '6' => 6
  | '7' => 7
  | '8' => 8
  | '9' => 9
  | _ => 0

/-- Consume leading decimal digits, accumulating their value onto `acc`. -/
def parseDigits (acc : Nat) : List Char → Nat × List Char
  | [] => (acc, [])
  | c :: cs =>
      if isDigitCh c then parseDigits (acc * 10 + digitVal c) cs
      else (acc, c :: cs)

/-- Consume the body of a JSON string up to (and including) the closing
double quote; yields the body characters and the remaining input. -/
def parseStringBody : List Char → Option (List Char × List Char)
  | [] => none
  | c :: cs =>
      if c = '\x22' then some ([], cs)
      else
        match parseStringBody cs with
        | some (s, r) => some (c :: s, r)
        | none => none

/-- True when the input does not start with a decimal digit (so a number
parse that stopped here consumed the whole numeral). -/
def noDigitHead : List Char → Bool
  | [] => true
  | c :: _ => !(isDigitCh c)

mutual

/-- Fuel-indexed recursive-descent parser for a JSON value (the embedding
of `json.loads`; out-of-fuel yields `none`, and `loads` supplies fuel
sufficient for any input it is given).  Grammar notes: leading whitespace
is skipped; a value is a string, an array, an object, or an integer. -/
def parseVal : Nat → List Char → Option (Json × List Char)
  | 0, _ => none
  | fuel + 1, cs =>
    match skipWs cs with
    | [] => none
    | c :: rest =>
      if c = '\x22' then
        match parseStringBody rest with
        | some (s, r) => some (.str (String.mk s), r)
        | none => none
      else if c = '[' then
        match parseElems fuel rest with
        | some (es, r) => some (.arr es, r)
        | none => none
      else if c = '\x7b' then
        match parseFields fuel rest with
        | some (fs, r) => some (.obj fs, r)
        | none => none
      else if c = '-' then
        match rest with
        | [] => none
        | d :: _ =>
          if isDigitCh d then
            match parseDigits 0 rest with
            | (n, r) => some (.num (-(n : Int)), r)
          else none
      else if isDigitCh c then
        match parseDigits 0 (c :: rest) with
        | (n, r) => some (.num ((n : Nat) : Int), r)
      else none

/-- Parse the contents of an array after the opening bracket: either an
immediate closing bracket, or comma-separated values up to the closing
bracket. -/
def parseElems : Nat → List Char → Option (List Json × List Char)
  | 0, _ => none
  | fuel + 1, cs =>
    match skipWs cs with
    | ']' :: r => some ([], r)
    | cs2 =>
      match parseVal fuel cs2 with
      | none => none
      | some (j, r) =>
        match skipWs r with
        | ',' :: r2 =>
          match parseElems fuel r2 with
          | some (es, r3) => some (j :: es, r3)
          | none => none
        | ']' :: r2 => some ([j], r2)
        | _ => none

/-- Parse the contents of an object after the opening brace: either an
immediate closing brace, or comma-separated "key": value pairs up to the
closing brace. -/
def parseFields : Nat → List Char → Option (List (String × Json) × List Char)
  | 0, _ => none
  | fuel + 1, cs =>
    match skipWs cs with
    | '\x7d' :: r => some ([], r)
    | '\x22' :: r =>
      match parseStringBody r with
      | none => none
      | some (k, r2) =>
        match skipWs r2 with
        | ':' :: r3 =>
          match parseVal fuel r3 with
          | none => none
          | some (v, r4) =>
            match skipWs r4 with
            | ',' :: r5 =>
              match parseFields fuel r5 with
              | some (fs, r6) => some ((String.mk k, v) :: fs, r6)
              | none => none
            | '\x7d' :: r5 => some ([(String.mk k, v)], r5)
            | _ => none
        | _ => none
    | _ => none

end

/-- Embedding of `json.loads`: parse a complete JSON document; any
leftover non-whitespace input, or a malformed document (for example the
empty string), is a decode error (`json.JSONDecodeError`). -/
def loads (s : String) : Except Unit Json :=
  match parseVal (s.length + 1) s.data with
  | some (j, rest) => if skipWs rest = [] then .ok j else .error ()
  | none => .error ()

/-- No double-quote character occurs in the string (such strings render
without escapes and round-trip through the codec). -/
def strNoQuote (s : String) : Bool :=
  s.data.all (fun c => !(c = '\x22'))

mutual

/-- Well-formed JSON values: every string (value or key) is quote-free.
Every value produced by `loads` is well-formed, and well-formed values
round-trip through `dumps` then `loads`. -/
def wfJson : Json → Bool
  | .num _ => true
  | .str s => strNoQuote s
  | .arr es => wfElems es
  | .obj fs => wfFields fs

/-- Well-formedness of a list of array elements. -/
def wfElems : List Json → Bool
  | [] => true
  | j :: es => wfJson j && wfElems es

/-- Well-formedness of a list of object fields. -/
def wfFields : List (String × Json) → Bool
  | [] => true
  | (k, v) :: fs => strNoQuote k && wfJson v && wfFields fs

end

mutual

/-- Parser fuel sufficient for a value (used to justify the fuel supplied
by `loads`). -/
def fuelJ : Json → Nat
  | .num _ => 1
  | .str _ => 1
  | .arr es => fuelE es + 2
  | .obj fs => fuelF fs + 2

/-- Parser fuel sufficient for array elements. -/
def fuelE : List Json → Nat
  | [] => 0
  | j :: es => fuelJ j + fuelE es

/-- Parser fuel sufficient for object fields. -/
def fuelF : List (String × Json) → Nat
  | [] => 0
  | (_, v) :: fs => fuelJ v + fuelF fs

end

/-- Python exception kinds this program can raise or propagate. -/
inductive PyExc where
  | noData
  | urlError
  | httpError (status : Nat)
  | attributeError
  | jsonDecodeError
  | typeError
  | indexError
  | keyError
  | fileNotFound
deriving DecidableEq

/-- Outcome of the single `urllib.request.urlopen` call that
`get_energi_prices` performs: the transport layer fails (urlopen raises
`URLError`), urlopen raises `HTTPError` for an error status, or a response
object comes back with a status and a body. -/
inductive FetchOutcome where
  | transportError
  | httpError (status : Nat)
  | response (status : Nat) (body : String)
deriving DecidableEq

/-- The urllib `HTTPResponse` object, with its `status` attribute and its
body (what `.read()` yields). -/
structure HTTPResponse where
  status : Nat
  body : String

/-- Attribute lookup for `status_code` on an `HTTPResponse`: urllib's
response object has `status` but no `status_code` attribute (that name
belongs to the requests library), so the lookup always fails, raising
`AttributeError`. -/
def statusCodeAttr (_resp : HTTPResponse) : Option Nat := none

/-- Embedding of `get_energi_prices` (src/main.py lines 36-51).  Exceptions
are modelled with `Except`.  A transport failure or an HTTPError from
urlopen propagates as-is.  When a response comes back with a non-200
status, the source executes `raise NoDataException(f"Status code
\x7bprices.status_code\x7d: ...")`: the f-string is evaluated first and
reads `prices.status_code`, an attribute that does not exist, so an
`AttributeError` is raised before the `NoDataException` can be constructed.
On a 200 response the body is parsed with `json.loads`, whose decode error
propagates. -/
def get_energi_prices (o : FetchOutcome) : Except PyExc Json :=
  match o with
  | .transportError => .error .urlError
  | .httpError s => .error (.httpError s)
  | .response s body =>
    if s ≠ 200 then
      match statusCodeAttr ⟨s, body⟩ with
      | none => .error .attributeError
      | some _ => .error .noData
    else
      match loads body with
      | .ok j => .ok j
      | .error _ => .error .jsonDecodeError

/-- The data directory contents: one entry per file name holding the file's
text content; `os.path.exists` is a successful lookup.  Later writes
shadow earlier entries. -/
abbrev FS := List (String × String)

/-- File lookup (first match wins; writes prepend). -/
def fsGet (fs : FS) (name : String) : Option String :=
  List.lookup name fs

/-- File creation or overwrite. -/
def fsSet (fs : FS) (name : String) (content : String) : FS :=
  (name, content) :: fs

/-- Cache file name for a date, `f"prices-\x7bdate_obj.isoformat()\x7d.json"`
(src/main.py lines 63 and 82); dates are modelled by their ISO string. -/
def price_filename (dateStr : String) : String :=
  "prices-" ++ dateStr ++ ".json"

/-- Embedding of `write_prices_file` (src/main.py lines 54-71).  The file
is opened in "w" mode — created or truncated to empty — before the fetch
runs inside the `with` block; on success the JSON dump of the fetched
prices is written; a `NoDataException` is caught and re-raised (leaving
the file empty); any other exception propagates, also leaving the file
empty.  Returns the file name. -/
def write_prices_file (o : FetchOutcome) (dateStr : String) (fs : FS) :
    Except PyExc String × FS :=
  let filename := price_filename dateStr
  let fs1 := fsSet fs filename ""
  match get_energi_prices o with
  | .ok prices => (.ok filename, fsSet fs1 filename (dumps prices))
  | .error .noData => (.error .noData, fs1)
  | .error e => (.error e, fs1)

/-- Result of one `read_prices_file` invocation: the returned value (with
`none` as the unavailable sentinel) or the escaping exception, the
resulting data directory, and how many times the fetcher
(`get_energi_prices`) ran. -/
structure ReadResult where
  ret : Except PyExc (Option Json)
  fs : FS
  fetches : Nat

/-- The `with open(path, "r")` tail of `read_prices_file` (src/main.py
lines 91-96): parse the cached file; on a `json.JSONDecodeError`,
re-invoke `write_prices_file` and return None — the fresh data is not
returned.  An exception from that re-write propagates. -/
def read_prices_open (o : FetchOutcome) (dateStr : String) (fs : FS)
    (fetches : Nat) : ReadResult :=
  let filename := price_filename dateStr
  match fsGet fs filename with
  | none => ⟨.error .fileNotFound, fs, fetches⟩
  | some content =>
    match loads content with
    | .ok prices => ⟨.ok (some prices), fs, fetches⟩
    | .error _ =>
      match write_prices_file o dateStr fs with
      | (.ok _, fs2) => ⟨.ok none, fs2, fetches + 1⟩
      | (.error e, fs2) => ⟨.error e, fs2, fetches + 1⟩

/-- Embedding of `read_prices_file` (src/main.py lines 73-96).  If the
cache file does not exist, `write_prices_file` runs first; only a
`NoDataException` from it is caught (returning the None sentinel) — any
other exception propagates.  Then the file is opened and parsed
(`read_prices_open`). -/
def read_prices_file (o : FetchOutcome) (dateStr : String) (fs : FS) :
    ReadResult :=
  let filename := price_filename dateStr
  match fsGet fs filename with
  | none =>
    (match write_prices_file o dateStr fs with
     | (.error .noData, fs1) => ⟨.ok none, fs1, 1⟩
     | (.error e, fs1) => ⟨.error e, fs1, 1⟩
     | (.ok _, fs1) => read_prices_open o dateStr fs1 1)
  | some _ => read_prices_open o dateStr fs 0

/-- The fixed red-background error markup printed when prices is None
(src/main.py line 122). -/
def errorMarkup : String :=
  "<span bgcolor=\x22#FF0000\x22 fgcolor=\x22#000000\x22> Error loading data ...</span>"

/-- Python subscript `j["key"]` on a JSON value: key lookup on a dict,
`KeyError` when absent, `TypeError` when the value is not a dict. -/
def jsonGetKey (j : Json) (key : String) : Except PyExc Json :=
  match j with
  | .obj fields =>
    match fields.lookup key with
    | some v => .ok v
    | none => .error .keyError
  | _ => .error .typeError

/-- Python subscript `j[i]` on a JSON value for a non-negative index:
`IndexError` out of range, `TypeError` when the value is not a list. -/
def jsonIndex (j : Json) (i : Nat) : Except PyExc Json :=
  match j with
  | .arr es =>
    match es.get? i with
    | some v => .ok v
    | none => .error .indexError
  | _ => .error .typeError

/-- The current-hour price value must be a number: a non-numeric value
would raise `TypeError` inside `format_price`'s arithmetic. -/
def jsonNum (j : Json) : Except PyExc Int :=
  match j with
  | .num n => .ok n
  | _ => .error .typeError

/-- Result of `output_hour_price`: the lines printed to stdout, the
escaping exception when one is raised, and the final cache state and fetch
count. -/
structure HourOutput where
  lines : List String
  exc : Option PyExc
  fs : FS
  fetches : Nat

/-- Embedding of `output_hour_price` (src/main.py lines 110-124).  Note the
source bug it reproduces: after printing the error markup for a None
result the function does not return — it falls through to
`prices["prices"][hour]`, and subscripting None raises `TypeError`. -/
def output_hour_price (o : FetchOutcome) (dateStr : String) (hour : Nat)
    (fs : FS) : HourOutput :=
  match read_prices_file o dateStr fs with
  | ⟨.error e, fs1, n⟩ => ⟨[], some e, fs1, n⟩
  | ⟨.ok prices, fs1, n⟩ =>
    let lines0 := if prices.isNone then [errorMarkup] else []
    match prices with
    | none => ⟨lines0, some .typeError, fs1, n⟩
    | some pj =>
      match jsonGetKey pj "prices" with
      | .error e => ⟨lines0, some e, fs1, n⟩
      | .ok arr =>
        match jsonIndex arr hour with
        | .error e => ⟨lines0, some e, fs1, n⟩
        | .ok entry =>
          match jsonGetKey entry "priceInclVat" with
          | .error e => ⟨lines0, some e, fs1, n⟩
          | .ok pv =>
            match jsonNum pv with
            | .error e => ⟨lines0, some e, fs1, n⟩
            | .ok price =>
              match output_background price with
              | none => ⟨lines0, some .indexError, fs1, n⟩
              | some bg =>
                ⟨lines0 ++ ["<span fgcolor=\x22black\x22 bgcolor=\x22" ++ bg ++
                  "\x22> kW/h " ++ format_price price ++ " </span>"],
                 none, fs1, n⟩

/-- A concrete API response body used in witnesses: a prices object with
one entry. -/
def sampleBody : String :=
  "\x7b\x22prices\x22: [\x7b\x22priceInclVat\x22: 450\x7d]\x7d"

/-- The JSON value `sampleBody` parses to. -/
def sampleJson : Json :=
  Json.obj [("prices", Json.arr [Json.obj [("priceInclVat", Json.num 450)]])]

/-- A digit character is recognized as a digit. -/
theorem isDigitCh_digitChar {d : Nat} (h : d < 10) :
    isDigitCh (digitChar d) = true := by
  interval_cases d <;> decide

/-- Digit characters decode to their value. -/
theorem digitVal_digitChar {d : Nat} (h : d < 10) :
    digitVal (digitChar d) = d := by
  interval_cases d <;> decide

/-- Digit characters are none of the parser's structural characters. -/
theorem digitChar_not_special {d : Nat} (h : d < 10) :
    digitChar d ≠ '\x22' ∧ digitChar d ≠ '[' ∧ digitChar d ≠ '\x7b' ∧
    digitChar d ≠ '-' ∧ digitChar d ≠ ']' ∧ isWsChar (digitChar d) = false := by
  interval_cases d <;> decide

/-- The decimal rendering of a natural number starts with a digit. -/
theorem natChars_head (n : Nat) :
    ∃ d t, natChars n = digitChar d :: t ∧ d < 10 := by
  induction n using Nat.strong_induction_on with
  | _ n ih =>
    rw [natChars]
    by_cases h : n < 10
    · exact ⟨n, [], by rw [dif_pos h], h⟩
    · obtain ⟨d, t, hdt, hd⟩ := ih (n / 10) (by omega)
      exact ⟨d, t ++ [digitChar (n % 10)], by rw [dif_neg h, hdt]; rfl, hd⟩

/-- Digit accumulation over a complete decimal rendering. -/
theorem parseDigits_natChars (n : Nat) :
    ∀ acc rest, parseDigits acc (natChars n ++ rest) =
      parseDigits (acc * 10 ^ (natChars n).length + n) rest := by
  induction n using Nat.strong_induction_on with
  | _ n ih =>
    intro acc rest
    rw [natChars]
    by_cases h : n < 10
    · rw [dif_pos h]
      simp only [List.cons_append, List.nil_append, List.length_cons,
        List.length_nil, parseDigits, isDigitCh_digitChar h,
        digitVal_digitChar h, if_true]
      norm_num
    · rw [dif_neg h]
      rw [List.append_assoc, List.cons_append, List.nil_append]
      rw [ih (n / 10) (by omega)]
      simp only [parseDigits, isDigitCh_digitChar (show n % 10 < 10 by omega),
        digitVal_digitChar (show n % 10 < 10 by omega), if_true]
      have hlen : (natChars (n / 10) ++ [digitChar (n % 10)]).length =
          (natChars (n / 10)).length + 1 := by
        simp
      rw [hlen]
      have harith : (acc * 10 ^ (natChars (n / 10)).length + n / 10) * 10 +
          n % 10 = acc * 10 ^ ((natChars (n / 10)).length + 1) + n := by
        rw [pow_succ]
        have : n / 10 * 10 + n % 10 = n := by omega
        ring_nf
        omega
      rw [harith]

/-- Digit parsing stops at a non-digit boundary. -/
theorem parseDigits_stop (acc : Nat) (rest : List Char)
    (h : noDigitHead rest = true) : parseDigits acc rest = (acc, rest) := by
  cases rest with
  | nil => rfl
  | cons c cs =>
    simp only [noDigitHead, Bool.not_eq_true'] at h
    simp only [parseDigits, h]
    simp

/-- A complete decimal numeral followed by a non-digit parses to its
value. -/
theorem parseDigits_complete (n : Nat) (rest : List Char)
    (h : noDigitHead rest = true) :
    parseDigits 0 (natChars n ++ rest) = (n, rest) := by
  rw [parseDigits_natChars, parseDigits_stop _ _ h]
  norm_num

/-- Quote-free string bodies parse back exactly. -/
theorem parseStringBody_append (s : List Char)
    (h : s.all (fun c => !(c = '\x22')) = true) (rest : List Char) :
    parseStringBody (s ++ '\x22' :: rest) = some (s, rest) := by
  induction s with
  | nil => rfl
  | cons c cs ih =>
    simp only [List.all_cons, Bool.and_eq_true, Bool.not_eq_true',
      decide_eq_false_iff_not] at h
    have hrec := ih h.2
    rw [List.cons_append, parseStringBody, if_neg h.1, hrec]

/-- Parsed string bodies contain no quote character. -/
theorem parseStringBody_no_quote :
    ∀ cs s r, parseStringBody cs = some (s, r) →
      s.all (fun c => !(c = '\x22')) = true := by
  intro cs
  induction cs with
  | nil => intro s r h; simp [parseStringBody] at h
  | cons c cs ih =>
    intro s r h
    simp only [parseStringBody] at h
    by_cases hc : c = '\x22'
    · rw [if_pos hc] at h
      simp only [Option.some.injEq, Prod.mk.injEq] at h
      obtain ⟨h1, h2⟩ := h
      subst h1
      rfl
    · rw [if_neg hc] at h
      rcases he : parseStringBody cs with _ | ⟨s2, r2⟩
      · rw [he] at h
        simp at h
      · rw [he] at h
        simp only [Option.some.injEq, Prod.mk.injEq] at h
        obtain ⟨h1, h2⟩ := h
        subst h1
        simp only [List.all_cons, Bool.and_eq_true]
        exact ⟨by simpa using hc, ih s2 r2 he⟩

/-- Whitespace skipping leaves a non-whitespace head alone. -/
theorem skipWs_cons_not_ws {c : Char} {cs : List Char} (h : isWsChar c = false) :
    skipWs (c :: cs) = c :: cs := by
  simp [skipWs, h]

/-- Parser dispatch: a leading quote starts a string. -/
theorem parseVal_quote (f : Nat) (cs : List Char) :
    parseVal (f + 1) ('\x22' :: cs) =
      match parseStringBody cs with
      | some (s, r) => some (.str (String.mk s), r)
      | none => none := rfl

/-- Parser dispatch: a leading bracket starts an array. -/
theorem parseVal_lbracket (f : Nat) (cs : List Char) :
    parseVal (f + 1) ('[' :: cs) =
      match parseElems f cs with
      | some (es, r) => some (.arr es, r)
      | none => none := rfl

/-- Parser dispatch: a leading brace starts an object. -/
theorem parseVal_lbrace (f : Nat) (cs : List Char) :
    parseVal (f + 1) ('\x7b' :: cs) =
      match parseFields f cs with
      | some (fs, r) => some (.obj fs, r)
      | none => none := rfl

/-- Parser dispatch: a leading minus sign starts a negative number. -/
theorem parseVal_minus (f : Nat) (cs : List Char) :
    parseVal (f + 1) ('-' :: cs) =
      (match cs with
      | [] => none
      | d :: _ =>
        if isDigitCh d then
          match parseDigits 0 cs with
          | (n, r) => some (.num (-(n : Int)), r)
        else none) := rfl

/-- Parser dispatch: a leading digit starts a non-negative number. -/
theorem parseVal_digitChar (f : Nat) {d : Nat} (hd : d < 10) (cs : List Char) :
    parseVal (f + 1) (digitChar d :: cs) =
      match parseDigits 0 (digitChar d :: cs) with
      | (n, r) => some (.num ((n : Nat) : Int), r) := by
  interval_cases d <;> rfl

/-- Parser dispatch: object fields starting with a quoted key. -/
theorem parseFields_quote (f : Nat) (cs : List Char) :
    parseFields (f + 1) ('\x22' :: cs) =
      (match parseStringBody cs with
      | none => none
      | some (k, r2) =>
        match skipWs r2 with
        | ':' :: r3 =>
          match parseVal f r3 with
          | none => none
          | some (v, r4) =>
            match skipWs r4 with
            | ',' :: r5 =>
              match parseFields f r5 with
              | some (fs, r6) => some ((String.mk k, v) :: fs, r6)
              | none => none
            | '\x7d' :: r5 => some ([(String.mk k, v)], r5)
            | _ => none
        | _ => none) := rfl

/-- A leading blank is skipped by the value parser. -/
theorem parseVal_ws (f : Nat) (cs : List Char) :
    parseVal f (' ' :: cs) = parseVal f cs := by
  cases f with
  | zero => rfl
  | succ f => rfl

/-- A leading blank is skipped by the element parser. -/
theorem parseElems_ws (f : Nat) (cs : List Char) :
    parseElems f (' ' :: cs) = parseElems f cs := by
  cases f with
  | zero => rfl
  | succ f => rfl

/-- A leading blank is skipped by the field parser. -/
theorem parseFields_ws (f : Nat) (cs : List Char) :
    parseFields f (' ' :: cs) = parseFields f cs := by
  cases f with
  | zero => rfl
  | succ f => rfl

/-- Element parsing on input that does not immediately close: parse one
value, then a comma continuation or the closing bracket. -/
theorem parseElems_value (f : Nat) (c : Char) (t : List Char)
    (hws : isWsChar c = false) (hne : c ≠ ']') :
    parseElems (f + 1) (c :: t) =
      match parseVal f (c :: t) with
      | none => none
      | some (j, r) =>
        match skipWs r with
        | ',' :: r2 =>
          match parseElems f r2 with
          | some (es, r3) => some (j :: es, r3)
          | none => none
        | ']' :: r2 => some ([j], r2)
        | _ => none := by
  simp only [parseElems]
  rw [skipWs_cons_not_ws hws]
  split
  · rename_i heq
    injection heq with h1 h2
    exact absurd h1 hne
  · rfl

/-- Every JSON value needs at least one unit of parser fuel. -/
theorem fuelJ_pos (j : Json) : 1 ≤ fuelJ j := by
  cases j <;> simp [fuelJ]

/-- The rendering of any JSON value starts with a non-whitespace character
that is not a closing bracket. -/
theorem dumpJson_head (j : Json) :
    ∃ c t, dumpJson j = c :: t ∧ isWsChar c = false ∧ c ≠ ']' := by
  cases j with
  | num n =>
    rw [show dumpJson (.num n) = intChars n from rfl]
    unfold intChars
    by_cases hn : n < 0
    · exact ⟨'-', natChars n.natAbs, by rw [if_pos hn], by decide, by decide⟩
    · obtain ⟨d, t, hdt, hd⟩ := natChars_head n.toNat
      obtain ⟨_, _, _, _, h5, h6⟩ := digitChar_not_special hd
      exact ⟨digitChar d, t, by rw [if_neg hn, hdt], h6, h5⟩
  | str s =>
    exact ⟨'\x22', s.data ++ ['\x22'], rfl, by decide, by decide⟩
  | arr es =>
    exact ⟨'[', dumpElems es ++ [']'], rfl, by decide, by decide⟩
  | obj fs =>
    exact ⟨'\x7b', dumpFields fs ++ ['\x7d'], rfl, by decide, by decide⟩

theorem parseElems_step_comma (f : Nat) (c : Char) (t : List Char)
    (hws : isWsChar c = false) (hne : c ≠ ']') (j : Json) (r2 : List Char)
    (hv : parseVal f (c :: t) = some (j, ',' :: r2)) :
    parseElems (f + 1) (c :: t) =
      match parseElems f r2 with
      | some (es, r3) => some (j :: es, r3)
      | none => none := by
  rw [parseElems_value f c t hws hne, hv]
  rfl

theorem parseElems_step_close (f : Nat) (c : Char) (t : List Char)
    (hws : isWsChar c = false) (hne : c ≠ ']') (j : Json) (r2 : List Char)
    (hv : parseVal f (c :: t) = some (j, ']' :: r2)) :
    parseElems (f + 1) (c :: t) = some ([j], r2) := by
  rw [parseElems_value f c t hws hne, hv]
  rfl

theorem parseFields_step_close (f : Nat) (cs : List Char) (kd : List Char)
    (r3 : List Char) (v : Json) (r5 : List Char)
    (hs : parseStringBody cs = some (kd, ':' :: r3))
    (hv : parseVal f r3 = some (v, '\x7d' :: r5)) :
    parseFields (f + 1) ('\x22' :: cs) = some ([(String.mk kd, v)], r5) := by
  rw [parseFields_quote, hs]
  show (match parseVal f r3 with
        | none => none
        | some (v, r4) =>
          match skipWs r4 with
          | ',' :: r5 =>
            match parseFields f r5 with
            | some (fs, r6) => some ((String.mk kd, v) :: fs, r6)
            | none => none
          | '\x7d' :: r5 => some ([(String.mk kd, v)], r5)
          | _ => none) = some ([(String.mk kd, v)], r5)
  rw [hv]
  rfl

theorem parseFields_step_comma (f : Nat) (cs : List Char) (kd : List Char)
    (r3 : List Char) (v : Json) (r5 : List Char)
    (hs : parseStringBody cs = some (kd, ':' :: r3))
    (hv : parseVal f r3 = some (v, ',' :: r5)) :
    parseFields (f + 1) ('\x22' :: cs) =
      match parseFields f r5 with
      | some (fs, r6) => some ((String.mk kd, v) :: fs, r6)
      | none => none := by
  rw [parseFields_quote, hs]
  show (match parseVal f r3 with
        | none => none
        | some (v, r4) =>
          match skipWs r4 with
          | ',' :: r5 =>
            match parseFields f r5 with
            | some (fs, r6) => some ((String.mk kd, v) :: fs, r6)
            | none => none
          | '\x7d' :: r5 => some ([(String.mk kd, v)], r5)
          | _ => none) =
      match parseFields f r5 with
      | some (fs, r6) => some ((String.mk kd, v) :: fs, r6)
      | none => none
  rw [hv]
  rfl

theorem parse_dump_main : ∀ fuel,
    (∀ j rest, wfJson j = true → fuelJ j ≤ fuel → noDigitHead rest = true →
      parseVal fuel (dumpJson j ++ rest) = some (j, rest)) ∧
    (∀ es rest, wfElems es = true → fuelE es + 1 ≤ fuel →
      parseElems fuel (dumpElems es ++ ']' :: rest) = some (es, rest)) ∧
    (∀ fs rest, wfFields fs = true → fuelF fs + 1 ≤ fuel →
      parseFields fuel (dumpFields fs ++ '\x7d' :: rest) = some (fs, rest)) := by
  intro fuel
  induction fuel with
  | zero =>
    refine ⟨fun j rest hwf hf hnd => absurd hf ?_,
            fun es rest hwf hf => absurd hf (by omega),
            fun fs rest hwf hf => absurd hf (by omega)⟩
    have := fuelJ_pos j
    omega
  | succ f ih =>
    obtain ⟨ihV, ihE, ihF⟩ := ih
    refine ⟨fun j rest hwf hf hnd => ?_, fun es rest hwf hf => ?_,
            fun fs rest hwf hf => ?_⟩
    · cases j with
      | num n =>
        rw [show dumpJson (.num n) = intChars n from rfl]
        unfold intChars
        by_cases hn : n < 0
        · rw [if_pos hn, List.cons_append, parseVal_minus]
          obtain ⟨d, t, hdt, hd⟩ := natChars_head n.natAbs
          rw [hdt, List.cons_append]
          show (if isDigitCh (digitChar d) = true then
                  match parseDigits 0 (digitChar d :: (t ++ rest)) with
                  | (n, r) => some (Json.num (-(n : Int)), r)
                else none) = some (Json.num n, rest)
          rw [isDigitCh_digitChar hd, if_pos rfl]
          rw [← List.cons_append, ← hdt, parseDigits_complete n.natAbs rest hnd]
          show some (Json.num (-((n.natAbs : Nat) : Int)), rest) =
            some (Json.num n, rest)
          have hv : -((n.natAbs : Nat) : Int) = n := by omega
          rw [hv]
        · rw [if_neg hn]
          obtain ⟨d, t, hdt, hd⟩ := natChars_head n.toNat
          rw [hdt, List.cons_append, parseVal_digitChar f hd]
          rw [← List.cons_append, ← hdt, parseDigits_complete n.toNat rest hnd]
          show some (Json.num ((n.toNat : Nat) : Int), rest) =
            some (Json.num n, rest)
          have hv : ((n.toNat : Nat) : Int) = n := by omega
          rw [hv]
      | str s =>
        rw [show dumpJson (.str s) = dumpStr s from rfl]
        unfold dumpStr
        simp only [List.cons_append, List.append_assoc, List.singleton_append,
          List.nil_append]
        rw [parseVal_quote]
        rw [parseStringBody_append s.data (by exact hwf) rest]
      | arr es =>
        rw [show dumpJson (.arr es) = '[' :: dumpElems es ++ [']'] from rfl]
        simp only [List.cons_append, List.append_assoc, List.singleton_append,
          List.nil_append]
        rw [parseVal_lbracket]
        rw [ihE es rest (by exact hwf) (by
          have h2 : fuelJ (.arr es) = fuelE es + 2 := rfl
          omega)]
      | obj fs2 =>
        rw [show dumpJson (.obj fs2) = '\x7b' :: dumpFields fs2 ++ ['\x7d']
          from rfl]
        simp only [List.cons_append, List.append_assoc, List.singleton_append,
          List.nil_append]
        rw [parseVal_lbrace]
        rw [ihF fs2 rest (by exact hwf) (by
          have h2 : fuelJ (.obj fs2) = fuelF fs2 + 2 := rfl
          omega)]
    · cases es with
      | nil =>
        rw [show dumpElems ([] : List Json) = [] from rfl, List.nil_append]
        rfl
      | cons j es2 =>
        simp only [wfElems, Bool.and_eq_true] at hwf
        obtain ⟨c, t, hdt, hcw, hcne⟩ := dumpJson_head j
        have hfj : fuelJ j ≤ f := by
          have h2 : fuelE (j :: es2) = fuelJ j + fuelE es2 := rfl
          have h3 := fuelJ_pos j
          omega
        cases es2 with
        | nil =>
          rw [show dumpElems [j] = dumpJson j from rfl]
          rw [hdt, List.cons_append,
            parseElems_step_close f c _ hcw hcne j rest
              (by rw [← List.cons_append, ← hdt]
                  exact ihV j (']' :: rest) hwf.1 hfj rfl)]
        | cons j2 es3 =>
          rw [show dumpElems (j :: j2 :: es3) =
            dumpJson j ++ ',' :: ' ' :: dumpElems (j2 :: es3) from rfl]
          simp only [List.cons_append, List.append_assoc]
          rw [hdt, List.cons_append,
            parseElems_step_comma f c _ hcw hcne j
              (' ' :: (dumpElems (j2 :: es3) ++ ']' :: rest))
              (by rw [← List.cons_append, ← hdt]
                  exact ihV j (',' :: ' ' :: (dumpElems (j2 :: es3) ++
                    ']' :: rest)) hwf.1 hfj rfl)]
          rw [parseElems_ws]
          rw [ihE (j2 :: es3) rest hwf.2 (by
            have h2 : fuelE (j :: j2 :: es3) = fuelJ j + fuelE (j2 :: es3) := rfl
            have h3 := fuelJ_pos j
            omega)]
    · cases fs with
      | nil =>
        rw [show dumpFields ([] : List (String × Json)) = [] from rfl,
          List.nil_append]
        rfl
      | cons kv fs2 =>
        obtain ⟨k, v⟩ := kv
        simp only [wfFields, Bool.and_eq_true] at hwf
        obtain ⟨⟨hk, hv⟩, hfs2⟩ := hwf
        have hfv : fuelJ v ≤ f := by
          have h2 : fuelF ((k, v) :: fs2) = fuelJ v + fuelF fs2 := rfl
          have h3 := fuelJ_pos v
          omega
        cases fs2 with
        | nil =>
          rw [show dumpFields [(k, v)] = dumpStr k ++ ':' :: ' ' :: dumpJson v
            from rfl]
          unfold dumpStr
          simp only [List.cons_append, List.append_assoc, List.nil_append]
          rw [parseFields_step_close f _ k.data (' ' :: (dumpJson v ++
              '\x7d' :: rest)) v rest
            (by rw [parseStringBody_append k.data hk])
            (by rw [parseVal_ws]
                exact ihV v ('\x7d' :: rest) hv hfv rfl)]
        | cons kv2 fs3 =>
          rw [show dumpFields ((k, v) :: kv2 :: fs3) =
            dumpStr k ++ ':' :: ' ' :: dumpJson v ++
              ',' :: ' ' :: dumpFields (kv2 :: fs3) from rfl]
          unfold dumpStr
          simp only [List.cons_append, List.append_assoc, List.nil_append]
          rw [parseFields_step_comma f _ k.data
              (' ' :: (dumpJson v ++ ',' :: ' ' :: (dumpFields (kv2 :: fs3) ++
                '\x7d' :: rest))) v
              (' ' :: (dumpFields (kv2 :: fs3) ++ '\x7d' :: rest))
            (by rw [parseStringBody_append k.data hk])
            (by rw [parseVal_ws]
                exact ihV v (',' :: ' ' :: (dumpFields (kv2 :: fs3) ++
                  '\x7d' :: rest)) hv hfv rfl)]
          rw [parseFields_ws]
          rw [ihF (kv2 :: fs3) rest hfs2 (by
            have h2 : fuelF ((k, v) :: kv2 :: fs3) =
              fuelJ v + fuelF (kv2 :: fs3) := rfl
            have h3 := fuelJ_pos v
            omega)]



mutual

theorem fuelJ_le : ∀ j : Json, fuelJ j ≤ (dumpJson j).length + 1
  | .num n => by
    have e1 : fuelJ (.num n) = 1 := rfl
    omega
  | .str s => by
    have e1 : fuelJ (.str s) = 1 := rfl
    omega
  | .arr es => by
    have h := fuelE_le es
    have e1 : fuelJ (.arr es) = fuelE es + 2 := rfl
    have e2 : (dumpJson (.arr es)).length = (dumpElems es).length + 2 := by
      rw [show dumpJson (.arr es) = '[' :: dumpElems es ++ [']'] from rfl]
      simp
    omega
  | .obj fs => by
    have h := fuelF_le fs
    have e1 : fuelJ (.obj fs) = fuelF fs + 2 := rfl
    have e2 : (dumpJson (.obj fs)).length = (dumpFields fs).length + 2 := by
      rw [show dumpJson (.obj fs) = '\x7b' :: dumpFields fs ++ ['\x7d']
        from rfl]
      simp
    omega

theorem fuelE_le : ∀ es : List Json, fuelE es ≤ (dumpElems es).length + 1
  | [] => by
    have e1 : fuelE ([] : List Json) = 0 := rfl
    omega
  | [j] => by
    have h := fuelJ_le j
    have e1 : fuelE [j] = fuelJ j + 0 := rfl
    have e2 : dumpElems [j] = dumpJson j := rfl
    rw [e1, e2]
    omega
  | j :: j2 :: es => by
    have h1 := fuelJ_le j
    have h2 := fuelE_le (j2 :: es)
    have e1 : fuelE (j :: j2 :: es) = fuelJ j + fuelE (j2 :: es) := rfl
    have e2 : (dumpElems (j :: j2 :: es)).length =
        (dumpJson j).length + ((dumpElems (j2 :: es)).length + 2) := by
      rw [show dumpElems (j :: j2 :: es) =
        dumpJson j ++ ',' :: ' ' :: dumpElems (j2 :: es) from rfl]
      simp
    omega

theorem fuelF_le : ∀ fs : List (String × Json),
    fuelF fs ≤ (dumpFields fs).length + 1
  | [] => by
    have e1 : fuelF ([] : List (String × Json)) = 0 := rfl
    omega
  | [(k, v)] => by
    have h := fuelJ_le v
    have e1 : fuelF [(k, v)] = fuelJ v + 0 := rfl
    have e2 : (dumpFields [(k, v)]).length =
        (dumpStr k).length + (1 + (1 + (dumpJson v).length)) := by
      rw [show dumpFields [(k, v)] = dumpStr k ++ ':' :: ' ' :: dumpJson v
        from rfl]
      simp
      omega
    omega
  | (k, v) :: kv2 :: fs => by
    have h1 := fuelJ_le v
    have h2 := fuelF_le (kv2 :: fs)
    have e1 : fuelF ((k, v) :: kv2 :: fs) = fuelJ v + fuelF (kv2 :: fs) := rfl
    have e2 : (dumpFields ((k, v) :: kv2 :: fs)).length =
        (dumpStr k).length + (1 + (1 + ((dumpJson v).length +
          ((dumpFields (kv2 :: fs)).length + 2)))) := by
      rw [show dumpFields ((k, v) :: kv2 :: fs) =
        dumpStr k ++ ':' :: ' ' :: dumpJson v ++
          ',' :: ' ' :: dumpFields (kv2 :: fs) from rfl]
      simp
      omega
    omega

end

theorem loads_dumps (j : Json) (h : wfJson j = true) :
    loads (dumps j) = .ok j := by
  unfold loads dumps
  have hlen : (String.mk (dumpJson j)).length = (dumpJson j).length := rfl
  have hdata : (String.mk (dumpJson j)).data = dumpJson j := rfl
  rw [hlen, hdata]
  have hmain := (parse_dump_main ((dumpJson j).length + 1)).1 j [] h
    (by have := fuelJ_le j; omega) rfl
  rw [List.append_nil] at hmain
  rw [hmain]
  rfl



theorem parse_wf_main : ∀ fuel,
    (∀ cs j rest, parseVal fuel cs = some (j, rest) → wfJson j = true) ∧
    (∀ cs es rest, parseElems fuel cs = some (es, rest) → wfElems es = true) ∧
    (∀ cs fs rest, parseFields fuel cs = some (fs, rest) → wfFields fs = true) := by
  intro fuel
  induction fuel with
  | zero =>
    refine ⟨fun cs j rest h => ?_, fun cs es rest h => ?_,
            fun cs fs rest h => ?_⟩ <;> simp [parseVal, parseElems, parseFields] at h
  | succ f ih =>
    obtain ⟨ihV, ihE, ihF⟩ := ih
    refine ⟨fun cs j rest h => ?_, fun cs es rest h => ?_,
            fun cs fs rest h => ?_⟩
    · simp only [parseVal] at h
      split at h
      · simp at h
      · split at h
        · -- string
          split at h
          · rename_i s r heq
            simp only [Option.some.injEq, Prod.mk.injEq] at h
            obtain ⟨h1, h2⟩ := h
            subst h1
            exact parseStringBody_no_quote _ _ _ heq
          · simp at h
        · split at h
          · -- array
            split at h
            · rename_i es r heq
              simp only [Option.some.injEq, Prod.mk.injEq] at h
              obtain ⟨h1, h2⟩ := h
              subst h1
              exact ihE _ es r heq
            · simp at h
          · split at h
            · -- object
              split at h
              · rename_i fs r heq
                simp only [Option.some.injEq, Prod.mk.injEq] at h
                obtain ⟨h1, h2⟩ := h
                subst h1
                exact ihF _ fs r heq
              · simp at h
            · split at h
              · -- negative number
                split at h
                · simp at h
                · split at h
                  · simp only [Option.some.injEq, Prod.mk.injEq] at h
                    obtain ⟨h1, h2⟩ := h
                    subst h1
                    rfl
                  · simp at h
              · split at h
                · -- non-negative number
                  simp only [Option.some.injEq, Prod.mk.injEq] at h
                  obtain ⟨h1, h2⟩ := h
                  subst h1
                  rfl
                · simp at h
    · simp only [parseElems] at h
      split at h
      · simp only [Option.some.injEq, Prod.mk.injEq] at h
        obtain ⟨h1, h2⟩ := h
        subst h1
        rfl
      · split at h
        · simp at h
        · rename_i j r heqv
          split at h
          · rename_i r2 heq2
            split at h
            · rename_i es2 r3 heq3
              simp only [Option.some.injEq, Prod.mk.injEq] at h
              obtain ⟨h1, h2⟩ := h
              subst h1
              have hw1 : wfJson j = true := ihV _ j _ heqv
              have hw2 : wfElems es2 = true := ihE _ es2 r3 heq3
              simp [wfElems, hw1, hw2]
            · simp at h
          · rename_i r2 heq2
            simp only [Option.some.injEq, Prod.mk.injEq] at h
            obtain ⟨h1, h2⟩ := h
            subst h1
            have hw1 : wfJson j = true := ihV _ j _ heqv
            simp [wfElems, hw1]
          · simp at h
    · simp only [parseFields] at h
      split at h
      · simp only [Option.some.injEq, Prod.mk.injEq] at h
        obtain ⟨h1, h2⟩ := h
        subst h1
        rfl
      · split at h
        · simp at h
        · rename_i k r2 heqs
          split at h
          · rename_i r3 heq3
            split at h
            · simp at h
            · rename_i v r4 heqv
              split at h
              · rename_i r5 heq5
                split at h
                · rename_i fs2 r6 heq6
                  simp only [Option.some.injEq, Prod.mk.injEq] at h
                  obtain ⟨h1, h2⟩ := h
                  subst h1
                  have hk : strNoQuote (String.mk k) = true :=
                    parseStringBody_no_quote _ _ _ heqs
                  have hw1 : wfJson v = true := ihV _ v _ heqv
                  have hw2 : wfFields fs2 = true := ihF _ fs2 r6 heq6
                  simp [wfFields, hk, hw1, hw2]
                · simp at h
              · rename_i r5 heq5
                simp only [Option.some.injEq, Prod.mk.injEq] at h
                obtain ⟨h1, h2⟩ := h
                subst h1
                have hk : strNoQuote (String.mk k) = true :=
                  parseStringBody_no_quote _ _ _ heqs
                have hw1 : wfJson v = true := ihV _ v _ heqv
                simp [wfFields, hk, hw1]
              · simp at h
          · simp at h
      · simp at h

/-- On prices at or below `MIN_COLOR`, the source returns `COLORS[0]`. -/
theorem bg_low {p : Int} (h : p ≤ MIN_COLOR) :
    output_background p = some "#00FF00" := by
  unfold output_background
  rw [if_pos h]
  decide

/-- On prices at or beyond `MAX_COLOR`, the source returns `COLORS[-1]`. -/
theorem bg_high {p : Int} (h : MAX_COLOR ≤ p) :
    output_background p = some "#FF0000" := by
  have hlt : ¬ p ≤ MIN_COLOR := by
    simp only [MIN_COLOR]; simp only [MAX_COLOR] at h; omega
  unfold output_background
  rw [if_neg hlt, if_pos h]
  decide

/-- In the interior range the source indexes the slice `COLORS[1:-2]`
(28 entries) at `(p - MIN_COLOR) // 16 - 1`, where `16 = 450 // 28`. -/
theorem bg_interior {p : Int} (h1 : MIN_COLOR < p) (h2 : p < MAX_COLOR) :
    output_background p =
      pyIndex (pySlice COLORS 1 (-2)) ((p - MIN_COLOR).fdiv 16 - 1) := by
  unfold output_background
  rw [if_neg (not_le.mpr h1), if_neg (not_le.mpr h2)]
  rfl

/-- Bounds of the interior index: it ranges over [-1, 27] for interior
prices, so it can be negative (Python then counts from the end). -/
theorem interior_index_bounds {p : Int} (h1 : MIN_COLOR < p) (h2 : p < MAX_COLOR) :
    -1 ≤ (p - MIN_COLOR).fdiv 16 - 1 ∧ (p - MIN_COLOR).fdiv 16 - 1 < 28 := by
  rw [Int.fdiv_eq_ediv _ (by norm_num)]
  simp only [MIN_COLOR] at h1 ⊢
  simp only [MAX_COLOR] at h2
  omega

/-- Any element of the interior slice is an element of `COLORS`. -/
theorem interior_subset : pySlice COLORS 1 (-2) ⊆ COLORS := by
  intro x hx
  unfold pySlice at hx
  exact List.take_subset _ _ (List.drop_subset _ _ hx)

/-- A Python subscript within range (negative indices allowed down to
-length) yields an element of the list. -/
theorem pyIndex_mem {l : List α} {i : Int}
    (h1 : -(l.length : Int) ≤ i) (h2 : i < l.length) :
    ∃ c, pyIndex l i = some c ∧ c ∈ l := by
  unfold pyIndex
  have hj : (0 : Int) ≤ (if i < 0 then i + l.length else i) ∧
      (if i < 0 then i + l.length else i) < l.length := by
    split <;> omega
  rw [if_neg (by omega)]
  have hlt : (if i < 0 then i + l.length else i).toNat < l.length := by omega
  refine ⟨l.get ⟨_, hlt⟩, ?_, List.get_mem _ _ _⟩
  exact List.get?_eq_get hlt

/-- Rank of prices at or below `MIN_COLOR` is 0. -/
theorem rank_low {p : Int} (h : p ≤ MIN_COLOR) : colorRank p = 0 := by
  unfold colorRank
  rw [bg_low h]
  decide

/-- Rank of prices at or beyond `MAX_COLOR` is 30 (the last stop). -/
theorem rank_high {p : Int} (h : MAX_COLOR ≤ p) : colorRank p = 30 := by
  unfold colorRank
  rw [bg_high h]
  decide

/-- Rank of interior prices past the first (anomalous) bucket follows the
floor-division formula `(p - MIN_COLOR) // 16`. -/
theorem rank_mid {p : Int} (h1 : MIN_COLOR + 16 ≤ p) (h2 : p < MAX_COLOR) :
    colorRank p = ((p - MIN_COLOR).fdiv 16).toNat := by
  have hlo : MIN_COLOR < p := by simp only [MIN_COLOR] at h1 ⊢; omega
  unfold colorRank
  rw [bg_interior hlo h2]
  rw [Int.fdiv_eq_ediv _ (by norm_num)]
  simp only [MIN_COLOR] at h1 ⊢
  simp only [MAX_COLOR] at h2
  obtain ⟨q, hq⟩ : ∃ q, (p - 250) / 16 = q := ⟨_, rfl⟩
  have hq1 : 1 ≤ q := by omega
  have hq2 : q ≤ 28 := by omega
  rw [hq]
  interval_cases q <;> decide

/-- Rank of the first interior bucket (the anomaly): prices in
(MIN_COLOR, MIN_COLOR + 16) land at rank 28 via Python's negative index. -/
theorem rank_first_bucket {p : Int} (h1 : MIN_COLOR < p) (h2 : p < MIN_COLOR + 16) :
    colorRank p = 28 := by
  have hhi : p < MAX_COLOR := by
    simp only [MAX_COLOR]; simp only [MIN_COLOR] at h2; omega
  unfold colorRank
  rw [bg_interior h1 hhi]
  rw [Int.fdiv_eq_ediv _ (by norm_num)]
  simp only [MIN_COLOR] at h1 h2 ⊢
  have hq : (p - 250) / 16 = 0 := by omega
  rw [hq]
  decide

/-- Claim C5: for every integer price p ≤ MIN_COLOR, `output_background`
returns the first gradient stop, and for every p ≥ MAX_COLOR it returns the
last gradient stop. -/
theorem C5_clamp_extremes (p : Int) :
    (p ≤ MIN_COLOR → output_background p = COLORS.head?) ∧
    (MAX_COLOR ≤ p → output_background p = COLORS.getLast?) := by
  constructor
  · intro h; rw [bg_low h]; decide
  · intro h; rw [bg_high h]; decide

/-- Witness for C5: evaluation at the concrete prices 100 and 800. -/
theorem C5_clamp_extremes_witness :
    output_background 100 = COLORS.head? ∧
    output_background 800 = COLORS.getLast? :=
  ⟨(C5_clamp_extremes 100).1 (by decide), (C5_clamp_extremes 800).2 (by decide)⟩

/-- Claim C10: `output_background` is total over all integer prices — it
always returns some element of the 31-entry color table — and in the first
interior bucket (price `MIN_COLOR + 1`) the negative index -1 selects, via
Python negative-index semantics, the color at the expensive end of the
interior palette, `#FF2200` (`COLORS[28]`), rather than failing. -/
theorem C10_output_background_total :
    (∀ p : Int, ∃ c, output_background p = some c ∧ c ∈ COLORS) ∧
    output_background (MIN_COLOR + 1) = some "#FF2200" := by
  constructor
  · intro p
    rcases le_or_lt p MIN_COLOR with h | h
    · exact ⟨_, bg_low h, by decide⟩
    · rcases lt_or_le p MAX_COLOR with h2 | h2
      · have hb := bg_interior h h2
        have hbd := interior_index_bounds h h2
        have hlen : (pySlice COLORS 1 (-2)).length = 28 := by decide
        obtain ⟨c, hc, hmem⟩ := pyIndex_mem
          (l := pySlice COLORS 1 (-2)) (i := (p - MIN_COLOR).fdiv 16 - 1)
          (by rw [hlen]; omega) (by rw [hlen]; omega)
        exact ⟨c, by rw [hb]; exact hc, interior_subset hmem⟩
      · exact ⟨_, bg_high h2, by decide⟩
  · decide

/-- Counterexample to claim C3 as stated: `output_background` is not
monotonic in expensiveness rank across all prices.  At the interior prices
251 ≤ 266, the rank drops from 28 (color `#FF2200`) to 1 (color
`#11FF00`), because the first interior bucket underflows to index -1 and
Python's negative indexing selects the expensive end of the palette. -/
theorem C3_monotonic_counterexample :
    ¬ ∀ p1 p2 : Int, p1 ≤ p2 → colorRank p1 ≤ colorRank p2 := by
  intro hmono
  have h := hmono 251 266 (by norm_num)
  have e1 : colorRank 251 = 28 := by decide
  have e2 : colorRank 266 = 1 := by decide
  omega

/-- Claim C3 (amended): `output_background` is monotonic non-decreasing in
expensiveness rank (position in the cheap-to-expensive table `COLORS`) for
every pair of prices p1 ≤ p2 that both avoid the anomalous first interior
bucket, i.e. each price is either ≤ MIN_COLOR or ≥ MIN_COLOR + 16.  (The
prices strictly between MIN_COLOR and MIN_COLOR + 16 underflow to index -1
and map to the expensive end, breaking monotonicity there.) -/
theorem C3_monotonic_amended (p1 p2 : Int) (h : p1 ≤ p2)
    (h1 : p1 ≤ MIN_COLOR ∨ MIN_COLOR + 16 ≤ p1)
    (h2 : p2 ≤ MIN_COLOR ∨ MIN_COLOR + 16 ≤ p2) :
    colorRank p1 ≤ colorRank p2 := by
  rcases h1 with h1 | h1
  · rw [rank_low h1]
    exact Nat.zero_le _
  · rcases h2 with h2 | h2
    · exfalso
      simp only [MIN_COLOR] at h1 h2
      omega
    · rcases lt_or_le p1 MAX_COLOR with hp1 | hp1
      · rcases lt_or_le p2 MAX_COLOR with hp2 | hp2
        · rw [rank_mid h1 hp1, rank_mid h2 hp2]
          rw [Int.fdiv_eq_ediv _ (by norm_num), Int.fdiv_eq_ediv _ (by norm_num)]
          omega
        · rw [rank_mid h1 hp1, rank_high hp2]
          rw [Int.fdiv_eq_ediv _ (by norm_num)]
          simp only [MIN_COLOR] at h1 ⊢
          simp only [MAX_COLOR] at hp1
          omega
      · have hp2 : MAX_COLOR ≤ p2 := le_trans hp1 h
        rw [rank_high hp1, rank_high hp2]

/-- Witness for the amended C3: concrete prices 240 ≤ 400 outside the
anomalous bucket. -/
theorem C3_monotonic_amended_witness : colorRank 240 ≤ colorRank 400 :=
  C3_monotonic_amended 240 400 (by decide) (Or.inl (by decide))
    (Or.inr (by decide))

/-- Counterexample to claim C4 as stated: the source does not compute over
the palette obtained by dropping exactly the two extreme stops (it drops
the first stop and the last two, via `COLORS[1:-2]`), so at price 400 the
source's result differs from the claimed algorithm's result; and the
source's interior index is negative at price 251, violating the claimed
bound 0 ≤ index. -/
theorem C4_interior_formula_counterexample :
    output_background 400 ≠ output_background_claimC4 400 ∧
    interiorIndex 251 < 0 := by
  constructor
  · decide
  · decide

/-- Claim C4 (amended): for interior prices the source computes over the
palette `COLORS[1:-2]` (dropping the first stop and the last two), of
length L = 28, with interval = (MAX_COLOR - MIN_COLOR) // 28 = 16 and
index = (price - MIN_COLOR) // 16 - 1; the index satisfies
-1 ≤ index < 28 (not 0 ≤ index: the first bucket underflows to -1, which
Python's negative indexing resolves to the last interior entry). -/
theorem C4_interior_formula_amended (p : Int)
    (h1 : MIN_COLOR < p) (h2 : p < MAX_COLOR) :
    output_background p = pyIndex (pySlice COLORS 1 (-2)) (interiorIndex p) ∧
    (pySlice COLORS 1 (-2)).length = 28 ∧
    (MAX_COLOR - MIN_COLOR).fdiv ((pySlice COLORS 1 (-2)).length : Int) = 16 ∧
    -1 ≤ interiorIndex p ∧ interiorIndex p < 28 := by
  have hI : interiorIndex p = (p - MIN_COLOR).fdiv 16 - 1 := rfl
  refine ⟨?_, by decide, by decide, ?_, ?_⟩
  · rw [hI]
    exact bg_interior h1 h2
  · rw [hI]
    exact (interior_index_bounds h1 h2).1
  · rw [hI]
    exact (interior_index_bounds h1 h2).2

/-- Witness for the amended C4: evaluation at the concrete interior price
400. -/
theorem C4_interior_formula_amended_witness :
    output_background 400 = pyIndex (pySlice COLORS 1 (-2)) (interiorIndex 400) ∧
    (pySlice COLORS 1 (-2)).length = 28 ∧
    (MAX_COLOR - MIN_COLOR).fdiv ((pySlice COLORS 1 (-2)).length : Int) = 16 ∧
    -1 ≤ interiorIndex 400 ∧ interiorIndex 400 < 28 :=
  C4_interior_formula_amended 400 (by decide) (by decide)

/-- Claim C7: `format_price` converts integer minor units (øre) to a
two-decimal DKK string: 250 ↦ "2.50 DKK", 0 ↦ "0.00 DKK", 123 ↦
"1.23 DKK". -/
theorem C7_format_price_examples :
    format_price 250 = "2.50 DKK" ∧ format_price 0 = "0.00 DKK" ∧
    format_price 123 = "1.23 DKK" := by
  refine ⟨?_, ?_, ?_⟩ <;> decide

/-- Values produced by `loads` are well-formed. -/
theorem parse_wf_loads {s : String} {j : Json} (h : loads s = .ok j) :
    wfJson j = true := by
  unfold loads at h
  split at h
  · rename_i j0 rest heq
    split at h
    · simp only [Except.ok.injEq] at h
      subst h
      exact (parse_wf_main _).1 _ _ _ heq
    · simp at h
  · simp at h

/-- Reading back a freshly written cache file yields its content. -/
theorem fsGet_fsSet_same (fs : FS) (n c : String) :
    fsGet (fsSet fs n c) n = some c := by
  simp [fsGet, fsSet, List.lookup]

/-- Claim C8: for a date with no cached entry, when the fetch succeeds
(200 response whose body parses to the DailyPriceSet j), `read_prices_file`
persists the dump of j under that date's file name before returning, makes
exactly one fetch, and the value it returns is the cache read-back, which
is structurally identical to the j the fetcher returned (write-then-read
round-trip through the JSON codec). -/
theorem C8_miss_roundtrip (body : String) (dateStr : String) (fs : FS)
    (j : Json)
    (hmiss : fsGet fs (price_filename dateStr) = none)
    (hbody : loads body = .ok j) :
    read_prices_file (.response 200 body) dateStr fs =
      ⟨.ok (some j),
       fsSet (fsSet fs (price_filename dateStr) "") (price_filename dateStr)
         (dumps j), 1⟩ := by
  have hfetch : get_energi_prices (.response 200 body) = .ok j := by
    have hstep : get_energi_prices (.response 200 body) =
        (match loads body with
         | .ok jj => .ok jj
         | .error _ => .error .jsonDecodeError) := rfl
    rw [hstep, hbody]
  have hround : loads (dumps j) = .ok j := loads_dumps j (parse_wf_loads hbody)
  simp only [read_prices_file, hmiss, write_prices_file, hfetch,
    read_prices_open, fsGet_fsSet_same, hround]

/-- Witness for C8: concrete run on an empty cache with `sampleBody`. -/
theorem C8_miss_roundtrip_witness :
    read_prices_file (.response 200 sampleBody) "2024-01-15" [] =
      ⟨.ok (some sampleJson),
       fsSet (fsSet [] (price_filename "2024-01-15") "")
         (price_filename "2024-01-15") (dumps sampleJson), 1⟩ :=
  C8_miss_roundtrip sampleBody "2024-01-15" [] sampleJson rfl rfl

/-- Counterexample to claim C2 as stated: with a corrupt cached file and a
succeeding re-fetch, `read_prices_file` returns the None sentinel, not the
fresh (re-fetched) DailyPriceSet. -/
theorem C2_returns_none_counterexample :
    (read_prices_file (.response 200 sampleBody) "2024-01-15"
      [(price_filename "2024-01-15", "garbage")]).ret = .ok none ∧
    (read_prices_file (.response 200 sampleBody) "2024-01-15"
      [(price_filename "2024-01-15", "garbage")]).ret ≠
      .ok (some sampleJson) := by
  have h1 : (read_prices_file (.response 200 sampleBody) "2024-01-15"
      [(price_filename "2024-01-15", "garbage")]).ret = .ok none := rfl
  refine ⟨h1, ?_⟩
  rw [h1]
  simp

/-- Claim C2 (amended): for a date whose cached file exists but fails to
deserialize, when the re-fetch succeeds `read_prices_file` re-invokes the
fetcher exactly once and persists the regenerated entry for that date, but
returns the None (unavailable) sentinel rather than the fresh read. -/
theorem C2_corrupt_refetch_amended (o : FetchOutcome) (dateStr : String)
    (fs : FS) (content : String) (j : Json)
    (hc : fsGet fs (price_filename dateStr) = some content)
    (hbad : loads content = .error ())
    (hfetch : get_energi_prices o = .ok j) :
    read_prices_file o dateStr fs =
      ⟨.ok none,
       fsSet (fsSet fs (price_filename dateStr) "") (price_filename dateStr)
         (dumps j), 1⟩ := by
  simp only [read_prices_file, hc, read_prices_open, hbad,
    write_prices_file, hfetch]

/-- Witness for the amended C2: concrete corrupt cache entry "garbage",
re-fetch succeeding with `sampleBody`. -/
theorem C2_corrupt_refetch_amended_witness :
    read_prices_file (.response 200 sampleBody) "2024-01-15"
      [(price_filename "2024-01-15", "garbage")] =
      ⟨.ok none,
       fsSet (fsSet [(price_filename "2024-01-15", "garbage")]
         (price_filename "2024-01-15") "") (price_filename "2024-01-15")
         (dumps sampleJson), 1⟩ :=
  C2_corrupt_refetch_amended (.response 200 sampleBody) "2024-01-15"
    [(price_filename "2024-01-15", "garbage")] "garbage" sampleJson rfl rfl rfl

/-- Claim C9: `write_prices_file` opens the cache file in write mode before
fetching, so on any fetch failure the error propagates while the file for
that date has been created or truncated to empty; the empty content is not
valid JSON, and a subsequent `read_prices_file` for that date finds the
existing corrupt entry rather than a cache miss — it takes the
corrupt-cache branch, which (on a successful re-fetch) returns the None
sentinel after one fetch instead of the miss-branch result. -/
theorem C9_write_truncates_before_fetch (o : FetchOutcome) (dateStr : String)
    (fs : FS) (e : PyExc) (o2 : FetchOutcome) (j : Json)
    (h : get_energi_prices o = .error e)
    (h2 : get_energi_prices o2 = .ok j) :
    (write_prices_file o dateStr fs).1 = .error e ∧
    fsGet (write_prices_file o dateStr fs).2 (price_filename dateStr) =
      some "" ∧
    loads "" = .error () ∧
    (read_prices_file o2 dateStr (write_prices_file o dateStr fs).2).ret =
      .ok none ∧
    (read_prices_file o2 dateStr
      (write_prices_file o dateStr fs).2).fetches = 1 := by
  have hw : write_prices_file o dateStr fs =
      (.error e, fsSet fs (price_filename dateStr) "") := by
    simp only [write_prices_file, h]
    cases e <;> rfl
  have hread : read_prices_file o2 dateStr
      (fsSet fs (price_filename dateStr) "") =
      ⟨.ok none,
       fsSet (fsSet (fsSet fs (price_filename dateStr) "")
         (price_filename dateStr) "") (price_filename dateStr) (dumps j),
       1⟩ :=
    C2_corrupt_refetch_amended o2 dateStr _ "" j (fsGet_fsSet_same _ _ _)
      rfl h2
  refine ⟨by rw [hw], by rw [hw]; exact fsGet_fsSet_same _ _ _, rfl, ?_, ?_⟩
  · rw [hw, show (Except.error e (ε := PyExc) (α := String),
      fsSet fs (price_filename dateStr) "").2 =
      fsSet fs (price_filename dateStr) "" from rfl, hread]
  · rw [hw, show (Except.error e (ε := PyExc) (α := String),
      fsSet fs (price_filename dateStr) "").2 =
      fsSet fs (price_filename dateStr) "" from rfl, hread]

/-- Witness for C9: concrete failing fetch (status 500) on an empty cache,
then a successful re-fetch with `sampleBody`. -/
theorem C9_write_truncates_before_fetch_witness :
    (write_prices_file (.response 500 "") "2024-01-15" []).1 =
      .error .attributeError ∧
    fsGet (write_prices_file (.response 500 "") "2024-01-15" []).2
      (price_filename "2024-01-15") = some "" ∧
    loads "" = .error () ∧
    (read_prices_file (.response 200 sampleBody) "2024-01-15"
      (write_prices_file (.response 500 "") "2024-01-15" []).2).ret =
      .ok none ∧
    (read_prices_file (.response 200 sampleBody) "2024-01-15"
      (write_prices_file (.response 500 "") "2024-01-15" []).2).fetches = 1 :=
  C9_write_truncates_before_fetch (.response 500 "") "2024-01-15" []
    .attributeError (.response 200 sampleBody) sampleJson rfl rfl

/-- Claim C1 (code-bug exhibit): on a simulated non-200 fetch with an empty
cache, `read_prices_file` raises AttributeError instead of returning the
None sentinel (the NoDataException construction reads the nonexistent
`status_code` attribute); and on the one path where `read_prices_file`
does return None (corrupt cache entry plus a successful re-fetch),
`output_hour_price` prints the fixed red error markup line but then
crashes with a TypeError (subscripting None) instead of returning. -/
theorem C1_error_path_behavior :
    (read_prices_file (.response 500 "") "2024-01-15" []).ret =
      .error .attributeError ∧
    (output_hour_price (.response 200 sampleBody) "2024-01-15" 10
      [(price_filename "2024-01-15", "garbage")]).lines = [errorMarkup] ∧
    (output_hour_price (.response 200 sampleBody) "2024-01-15" 10
      [(price_filename "2024-01-15", "garbage")]).exc = some .typeError :=
  ⟨rfl, rfl, rfl⟩

/-- Claim C6 (code-bug exhibit): no fetch failure ever signals
NoDataException.  An in-band non-200 response triggers an AttributeError
(the exception message reads `prices.status_code`, an attribute urllib
responses do not have); a transport failure propagates as URLError; an
HTTP error status raised by urlopen propagates as HTTPError.  In no case
does `get_energi_prices` produce the NoDataException the claim (and the
function's own raise statement) intends. -/
theorem C6_fetch_error_not_nodata :
    get_energi_prices (.response 500 "") = .error .attributeError ∧
    get_energi_prices (.response 201 "x") = .error .attributeError ∧
    get_energi_prices .transportError = .error .urlError ∧
    get_energi_prices (.httpError 404) = .error (.httpError 404) ∧
    (∀ o : FetchOutcome, get_energi_prices o ≠ .error .noData) := by
  refine ⟨rfl, rfl, rfl, rfl, fun o => ?_⟩
  cases o with
  | transportError => simp [get_energi_prices]
  | httpError s => simp [get_energi_prices]
  | response s body =>
    simp only [get_energi_prices]
    by_cases hs : s ≠ 200
    · rw [if_pos hs]
      simp [statusCodeAttr]
    · rw [if_neg hs]
      split <;> simp

end EnergyTracker
